import Mathlib

/-!
Verification development for the DeepSeek-API-Server relay (src/server.js).

The embedding models:
  * the JSON values produced by the platform JSON.parse (inductive Json and an
    executable parser over character lists);
  * JavaScript truthiness, property access and string coercion as used by the
    stream accumulator;
  * the streaming accumulator of sendMessage (per-chunk split on CR/LF,
    per-line data-prefix check, JSON parse, delta extraction);
  * the POST /api/v1/chat/completions handler as a function from the
    environment credential, the parsed request body and the outcomes of the
    two upstream calls to the HTTP response, recording which upstream calls
    were issued and with which payloads.

Strings are modelled as lists of characters at the core so that all
definitions evaluate by kernel reduction. Numeric JSON literals are modelled
exactly as scaled integers (mantissa and power of ten); the IEEE-754
formatting of numbers is approximated in jsRender, which is reachable only
when a stream delta is a non-string value — no stream in this development
uses numeric deltas.
-/

/-- Characters that JSON.parse treats as insignificant whitespace. -/
def jsonWS (c : Char) : Bool :=
  c == ' ' || c == '\t' || c == '\n' || c == '\r'

/-- Characters removed by the JavaScript String.prototype.trim used on each
stream line (ASCII whitespace together with NBSP and the BOM; the remaining
exotic Unicode space separators do not occur in the streams modelled here). -/
def jsTrimWS (c : Char) : Bool :=
  c == ' ' || c == '\t' || c == '\n' || c == '\r' || c == '\x0b' || c == '\x0c'
    || c == ' ' || c == '﻿'

/-- The double-quote character. -/
def quoteC : Char := Char.ofNat 34

/-- The backslash character. -/
def backslashC : Char := Char.ofNat 92

/-- The opening curly brace character. -/
def lbraceC : Char := Char.ofNat 123

/-- The closing curly brace character. -/
def rbraceC : Char := Char.ofNat 125

mutual

/-- JSON values as produced by JSON.parse. Numbers are kept exactly as
mantissa times ten to the exp10 power. Object fields are kept in source
order; duplicate keys are resolved on lookup with the last binding winning,
as JavaScript object literals do. The element and field lists are part of
the mutual inductive so that every recursion over a value is structural. -/
inductive Json where
  | null : Json
  | bool (b : Bool) : Json
  | num (mantissa : Int) (exp10 : Int) : Json
  | str (s : String) : Json
  | arr (elems : JList) : Json
  | obj (fields : JFields) : Json

/-- Spine of array elements. -/
inductive JList where
  | nil : JList
  | cons (hd : Json) (tl : JList) : JList

/-- Spine of object fields. -/
inductive JFields where
  | nil : JFields
  | cons (key : String) (val : Json) (tl : JFields) : JFields

end

/-- Build the element spine of an array value from a list. -/
def JList.ofList : List Json → JList
  | [] => .nil
  | j :: r => .cons j (JList.ofList r)

/-- Build the field spine of an object value from a list of pairs. -/
def JFields.ofList : List (String × Json) → JFields
  | [] => .nil
  | kv :: r => .cons kv.1 kv.2 (JFields.ofList r)

/-- Array value from a list of elements. -/
def jarr (l : List Json) : Json := .arr (JList.ofList l)

/-- Object value from a list of key-value pairs. -/
def jobj (l : List (String × Json)) : Json := .obj (JFields.ofList l)

/-- Drop leading JSON whitespace. -/
def skipWs : List Char → List Char
  | [] => []
  | c :: r => if jsonWS c then skipWs r else c :: r

/-- Value of a hexadecimal digit. -/
def hexVal (c : Char) : Option Nat :=
  if '0' ≤ c ∧ c ≤ '9' then some (c.toNat - 48)
  else if 'a' ≤ c ∧ c ≤ 'f' then some (c.toNat - 87)
  else if 'A' ≤ c ∧ c ≤ 'F' then some (c.toNat - 55)
  else none

/-- Decode one JSON string escape (the character after the backslash),
returning the decoded character and the remaining input. Lone surrogate
escapes are rejected; a Lean Char is a Unicode scalar value, and no stream
in this development uses surrogate escapes. -/
def escDecode (e : Char) (r : List Char) : Option (Char × List Char) :=
  if e == quoteC then some (quoteC, r)
  else if e == backslashC then some (backslashC, r)
  else if e == '/' then some ('/', r)
  else if e == 'b' then some (Char.ofNat 8, r)
  else if e == 'f' then some (Char.ofNat 12, r)
  else if e == 'n' then some ('\n', r)
  else if e == 'r' then some ('\r', r)
  else if e == 't' then some ('\t', r)
  else if e == 'u' then
    match r with
    | h1 :: h2 :: h3 :: h4 :: r4 =>
      match hexVal h1, hexVal h2, hexVal h3, hexVal h4 with
      | some a, some b, some c, some d =>
        let n := ((a * 16 + b) * 16 + c) * 16 + d
        if 55296 ≤ n ∧ n ≤ 57343 then none else some (Char.ofNat n, r4)
      | _, _, _, _ => none
    | _ => none
  else none

/-- Parse the body of a JSON string (input starts after the opening quote),
returning the decoded characters and the input after the closing quote.
Control characters below U+0020 are rejected, as JSON.parse does. -/
def parseStrBody : Nat → List Char → Option (List Char × List Char)
  | 0, _ => none
  | _ + 1, [] => none
  | fuel + 1, c :: r =>
    if c == quoteC then some ([], r)
    else if c == backslashC then
      match r with
      | [] => none
      | e :: r2 =>
        match escDecode e r2 with
        | none => none
        | some (d, r3) =>
          match parseStrBody fuel r3 with
          | none => none
          | some (cs, rest) => some (d :: cs, rest)
    else if 32 ≤ c.toNat then
      match parseStrBody fuel r with
      | none => none
      | some (cs, rest) => some (c :: cs, rest)
    else none

/-- Longest prefix of decimal digits together with the rest of the input. -/
def spanDigits : List Char → List Char × List Char
  | [] => ([], [])
  | c :: r =>
    if c.isDigit then
      match spanDigits r with
      | (a, b) => (c :: a, b)
    else ([], c :: r)

/-- Numeric value of a list of decimal digits. -/
def natOfDigits (ds : List Char) : Nat :=
  ds.foldl (fun a c => a * 10 + (c.toNat - 48)) 0

/-- Parse a JSON numeric literal following the JSON grammar: optional minus,
integer part without a spurious leading zero, optional fraction, optional
exponent. The exact value is kept as mantissa times ten to a power. -/
def parseNum (s : List Char) : Option (Json × List Char) :=
  let signed := match s with
    | c :: r => if c == '-' then (true, r) else (false, s)
    | [] => (false, s)
  match spanDigits signed.2 with
  | ([], _) => none
  | (intDs, s2) =>
    if 1 < intDs.length ∧ intDs.head? = some '0' then none
    else
      let fracStep : Option (List Char × List Char) :=
        match s2 with
        | c :: r =>
          if c == '.' then
            match spanDigits r with
            | ([], _) => none
            | (ds, r2) => some (ds, r2)
          else some ([], s2)
        | [] => some ([], s2)
      match fracStep with
      | none => none
      | some (fracDs, s3) =>
        let expStep : Option (Int × List Char) :=
          match s3 with
          | c :: r =>
            if c == 'e' || c == 'E' then
              let esigned : Int × List Char := match r with
                | k :: r2 =>
                  if k == '+' then (1, r2)
                  else if k == '-' then (-1, r2)
                  else (1, r)
                | [] => (1, r)
              match spanDigits esigned.2 with
              | ([], _) => none
              | (eds, r2) => some (esigned.1 * Int.ofNat (natOfDigits eds), r2)
            else some (0, s3)
          | [] => some (0, s3)
        match expStep with
        | none => none
        | some (e, s4) =>
          let m : Int := Int.ofNat (natOfDigits (intDs ++ fracDs))
          let m2 : Int := if signed.1 then -m else m
          some (Json.num m2 (e - Int.ofNat fracDs.length), s4)

/-- Intermediate results of the recursive-descent JSON parser. -/
inductive PAux where
  | val (j : Json)
  | elems (js : List Json)
  | fields (fs : List (String × Json))

/-- Fuel-indexed recursive-descent parser. Mode 0 parses one value; mode 1
parses the comma-separated elements of a non-empty array including the
closing bracket; mode 2 parses the members of a non-empty object including
the closing brace. -/
def parseP : Nat → Nat → List Char → Option (PAux × List Char)
  | 0, _, _ => none
  | fuel + 1, 0, s =>
    match skipWs s with
    | 'n' :: 'u' :: 'l' :: 'l' :: r => some (.val .null, r)
    | 't' :: 'r' :: 'u' :: 'e' :: r => some (.val (.bool true), r)
    | 'f' :: 'a' :: 'l' :: 's' :: 'e' :: r => some (.val (.bool false), r)
    | c :: r =>
      if c == quoteC then
        match parseStrBody (r.length + 1) r with
        | some (cs, rest) => some (.val (.str (String.mk cs)), rest)
        | none => none
      else if c == '[' then
        match skipWs r with
        | b :: r2 =>
          if b == ']' then some (.val (jarr []), r2)
          else
            match parseP fuel 1 (b :: r2) with
            | some (.elems js, rest) => some (.val (jarr js), rest)
            | _ => none
        | [] => none
      else if c == lbraceC then
        match skipWs r with
        | b :: r2 =>
          if b == rbraceC then some (.val (jobj []), r2)
          else
            match parseP fuel 2 (b :: r2) with
            | some (.fields fs, rest) => some (.val (jobj fs), rest)
            | _ => none
        | [] => none
      else if c == '-' || c.isDigit then
        match parseNum (c :: r) with
        | some (j, rest) => some (.val j, rest)
        | none => none
      else none
    | [] => none
  | fuel + 1, 1, s =>
    match parseP fuel 0 s with
    | some (.val j, rest) =>
      match skipWs rest with
      | c :: r2 =>
        if c == ',' then
          match parseP fuel 1 r2 with
          | some (.elems js, rest2) => some (.elems (j :: js), rest2)
          | _ => none
        else if c == ']' then some (.elems [j], r2)
        else none
      | [] => none
    | _ => none
  | fuel + 1, _, s =>
    match skipWs s with
    | c :: r =>
      if c == quoteC then
        match parseStrBody (r.length + 1) r with
        | some (kcs, rest) =>
          match skipWs rest with
          | d :: r2 =>
            if d == ':' then
              match parseP fuel 0 r2 with
              | some (.val v, rest2) =>
                match skipWs rest2 with
                | e :: r3 =>
                  if e == ',' then
                    match parseP fuel 2 r3 with
                    | some (.fields fs, rest3) =>
                      some (.fields ((String.mk kcs, v) :: fs), rest3)
                    | _ => none
                  else if e == rbraceC then
                    some (.fields [(String.mk kcs, v)], r3)
                  else none
                | [] => none
              | _ => none
            else none
          | [] => none
        | none => none
      else none
    | [] => none

/-- Model of JSON.parse as called on the text after the data prefix of a
stream line: parse one value and require only whitespace to remain. -/
def parseJson (s : List Char) : Option Json :=
  match parseP (2 * s.length + 4) 0 s with
  | some (.val v, rest) => if skipWs rest = [] then some v else none
  | _ => none

example : parseJson "\x7b\"choices\":[\x7b\"delta\":\x7b\"content\":\"Hel\"\x7d\x7d]\x7d".data =
    some (jobj [("choices", jarr [jobj [("delta",
      jobj [("content", Json.str "Hel")])]])]) := rfl

example : parseJson "\x7b\"choi".data = none := rfl

example : parseJson "[1,-2.5e2,true,null,\"a\"]".data =
    some (jarr [Json.num 1 0, Json.num (-25) 1, Json.bool true, Json.null,
      Json.str "a"]) := rfl

/-- JavaScript truthiness of a JSON value: false, null, zero and the empty
string are falsy; every array and object is truthy. -/
def Json.truthy : Json → Bool
  | .null => false
  | .bool b => b
  | .num m _ => m != 0
  | .str s => s != ""
  | .arr _ => true
  | .obj _ => true

/-- JavaScript truthiness of a possibly-missing value: an absent property
(undefined) is falsy. -/
def truthyOpt : Option Json → Bool
  | none => false
  | some v => v.truthy

/-- Lookup of an object field by key with the last binding winning, matching
how JavaScript resolves duplicate keys in a parsed object. -/
def lookupField : JFields → String → Option Json
  | .nil, _ => none
  | .cons k v rest, key =>
    match lookupField rest key with
    | some r => some r
    | none => if k = key then some v else none

/-- JavaScript property access by name: objects expose their fields; every
other value has no property of the names used by the accumulator (the
values reaching the dotted chains are guarded by truthiness, so the
null-access TypeError path is unreachable with an observable effect). -/
def getField : Json → String → Option Json
  | .obj fs, k => lookupField fs k
  | _, _ => none

/-- JavaScript index-zero access as used for choices[0]: the head of an
array, the field named 0 of an object, or the first character of a string. -/
def index0 : Json → Option Json
  | .arr (.cons v _) => some v
  | .arr .nil => none
  | .obj fs => lookupField fs "0"
  | .str s =>
    match s.data with
    | [] => none
    | c :: _ => some (.str (String.mk [c]))
  | _ => none

/-- Rendering of a scaled-integer JSON number for string coercion. This
matches JavaScript exactly on integers; for fractional or exponent forms it
is an approximation of the IEEE-754 formatting, reachable only for numeric
deltas, which no stream in this development contains. -/
def numRender (m e : Int) : String :=
  if e = 0 then toString m else toString m ++ "e" ++ toString e

mutual

/-- String coercion of a JSON value as performed by the JavaScript +=
operator, together with the comma join of Array.prototype.toString, which
renders null elements as empty strings. -/
def Json.jsToString : Json → String
  | .null => "null"
  | .bool true => "true"
  | .bool false => "false"
  | .num m e => numRender m e
  | .str s => s
  | .arr vs => JList.joinElems vs
  | .obj _ => "[object Object]"

/-- Comma join of the elements of an array for string coercion. -/
def JList.joinElems : JList → String
  | .nil => ""
  | .cons .null .nil => ""
  | .cons v .nil => Json.jsToString v
  | .cons .null (.cons w rest) => "," ++ JList.joinElems (.cons w rest)
  | .cons v (.cons w rest) =>
    Json.jsToString v ++ "," ++ JList.joinElems (.cons w rest)

end

/-- Extraction of the incremental text of one parsed stream event, following
the guard of server.js line 85: the chain choices, choices[0], delta and
content must each be truthy, and then the content coerced to a string is
appended to the accumulator. -/
def extractDelta (j : Json) : Option String :=
  match getField j "choices" with
  | none => none
  | some choices =>
    if choices.truthy = false then none
    else
      match index0 choices with
      | none => none
      | some c0 =>
        if c0.truthy = false then none
        else
          match getField c0 "delta" with
          | none => none
          | some delta =>
            if delta.truthy = false then none
            else
              match getField delta "content" with
              | none => none
              | some content =>
                if content.truthy = false then none
                else some content.jsToString

example : extractDelta (jobj [("choices", jarr [jobj [("delta",
    jobj [("content", Json.str "Hel")])]])]) = some "Hel" := rfl

example : extractDelta (jobj [("choices", jarr [jobj [("delta",
    jobj [("content", Json.str "")])]])]) = none := rfl

example : extractDelta (jobj [("nochoices", Json.str "x")]) = none := rfl

example : Json.jsToString (jarr [Json.num 1 0, Json.null, Json.str "x",
    jarr [Json.num 2 0, Json.num 3 0]]) = "1,,x,2,3" := rfl

/-- JavaScript String.prototype.trim on a character list: drop whitespace
from both ends. -/
def trimChars (l : List Char) : List Char :=
  ((l.dropWhile jsTrimWS).reverse.dropWhile jsTrimWS).reverse

/-- Split a character list at every newline, keeping empty segments, as the
regular expression split of server.js line 77 does before carriage returns
are taken into account. The result is always non-empty. -/
def splitNL : List Char → List (List Char)
  | [] => [[]]
  | c :: rest =>
    if c = '\n' then [] :: splitNL rest
    else
      match splitNL rest with
      | [] => [[c]]
      | l :: ls => (c :: l) :: ls

/-- Remove one trailing carriage return, used on every segment that was
terminated by a newline so that the split agrees with the CR-LF pattern. -/
def stripCR (l : List Char) : List Char :=
  match l.reverse with
  | c :: rest => if c = '\r' then rest.reverse else l
  | [] => l

/-- Apply a function to every element except the last one. -/
def mapButLast (f : List Char → List Char) : List (List Char) → List (List Char)
  | [] => []
  | [a] => [a]
  | a :: b :: rest => f a :: mapButLast f (b :: rest)

/-- Split one decoded chunk into lines exactly as the split on the CR-LF
regular expression does: segments are cut at every newline, and the carriage
return immediately preceding a consumed newline is consumed with it. -/
def splitLines (s : List Char) : List (List Char) :=
  mapButLast stripCR (splitNL s)

example : splitLines "a\r\nb\nc".data = ["a".data, "b".data, "c".data] := rfl

example : splitLines "a\rb".data = ["a\rb".data] := rfl

example : splitLines "a\n\n".data = ["a".data, [], []] := rfl

/-- The literal line prefix checked by server.js line 78. -/
def dataPrefixC : List Char := "data: ".data

/-- Process one line of the stream against the accumulator, following
server.js lines 78 to 91: trim the line, require the data prefix, parse the
remainder after the six prefix characters as JSON, and if the delta chain is
truthy append the content; a failed parse or an unexpected shape leaves the
accumulator unchanged. -/
def processLineC (acc : List Char) (line : List Char) : List Char :=
  let t := trimChars line
  if dataPrefixC.isPrefixOf t then
    match parseJson (t.drop 6) with
    | some j =>
      match extractDelta j with
      | some s => acc ++ s.data
      | none => acc
    | none => acc
  else acc

/-- Process one decoded chunk: split it into lines and fold the per-line
step over them, as the data handler of server.js line 76 does. The split is
per chunk; no partial trailing line is carried to the next chunk. -/
def processChunkC (acc : List Char) (chunk : List Char) : List Char :=
  (splitLines chunk).foldl processLineC acc

/-- The accumulated response of sendMessage over a whole sequence of chunks
arriving in order, starting from the empty accumulator. -/
def sendMessageResultC (chunks : List String) : List Char :=
  chunks.foldl (fun acc c => processChunkC acc c.data) []

/-- An upstream completion stream: the decoded chunks delivered in order,
and an optional terminal transport error in place of the end event. -/
structure UpStream where
  chunks : List String
  failure : Option String

/-- Result of sendMessage for a given upstream stream: a terminal stream
error rejects with that error and discards the accumulator, otherwise the
promise resolves with the accumulated string (server.js lines 93 to 102). -/
def sendMessage (u : UpStream) : Except String String :=
  match u.failure with
  | some e => Except.error e
  | none => Except.ok (String.mk (sendMessageResultC u.chunks))

example : sendMessageResultC
    ["data: \x7b\"choices\":[\x7b\"delta\":\x7b\"content\":\"Hel\"\x7d\x7d]\x7d\n",
     "data: \x7b\"choices\":[\x7b\"delta\":\x7b\"content\":\"lo\"\x7d\x7d]\x7d\n"] =
    "Hello".data := rfl

/-- The fixed default model class of server.js line 11. -/
def DEEPSEEK_MODEL_CLASS : String := "deepseek_code"

/-- The model allow-list of server.js line 12. -/
def VALID_MODELS : List String := ["deepseek_code", "deepseek_chat"]

/-- Payload sent by clearChatContext (server.js lines 22 to 26): a fixed
model class and a disabled welcome message, independent of the request. -/
structure ClearPayload where
  model_class : String
  append_welcome_message : Bool
deriving DecidableEq

/-- The one clear payload the context-reset client ever sends. -/
def clearPayload : ClearPayload :=
  { model_class := DEEPSEEK_MODEL_CLASS, append_welcome_message := false }

/-- Payload sent by sendMessage (server.js lines 55 to 61). The message and
the model class keep the JavaScript values taken from the request body; a
falsy model falls back to the default model class. The constant temperature
field is an IEEE-754 literal and is not modelled. -/
structure SendPayload where
  message : Json
  stream : Bool
  model_preference : Option Json
  model_class : Json

/-- Construction of the completion payload from the validated message and
the optional model of the request. -/
def mkSendPayload (msg : Option Json) (model : Option Json) : SendPayload :=
  { message := msg.getD Json.null
    stream := true
    model_preference := none
    model_class :=
      match model with
      | some v => if v.truthy then v else Json.str DEEPSEEK_MODEL_CLASS
      | none => Json.str DEEPSEEK_MODEL_CLASS }

/-- Presence check of the upstream credential: the handler tests the
environment variable for JavaScript truthiness, so an unset variable and an
empty string both count as missing (server.js line 119). -/
def keyPresent : Option String → Bool
  | none => false
  | some s => s != ""

/-- The model field destructured from the request body (server.js line 124). -/
def bodyModel (body : Json) : Option Json := getField body "model"

/-- The request field destructured from the request body (server.js line 124). -/
def bodyRequest (body : Json) : Option Json := getField body "request"

/-- The message destructured from request or from the empty-object fallback
(server.js line 125): a falsy request field falls back to an empty object,
and a truthy non-object request exposes no message property. -/
def extractMessage (body : Json) : Option Json :=
  getField
    (match bodyRequest body with
     | some r => if r.truthy then r else jobj []
     | none => jobj [])
    "message"

/-- Whether the model value passes the allow-list membership test of
server.js line 134; includes uses strict equality, so only the two listed
strings match. -/
def modelAllowed : Option Json → Bool
  | some (.str s) => VALID_MODELS.contains s
  | _ => false

/-- Error body of the JSON error responses. -/
def errJson (m : String) : Json := jobj [("error", Json.str m)]

/-- The fixed missing-credential message of server.js line 121. -/
def missingKeyMsg : String :=
  "DeepSeek API key is not provided in environment variables."

/-- The missing-message error of server.js line 130. -/
def requiredMsg : String := "Message is required."

/-- The invalid-model error of server.js line 136. -/
def invalidModelMsg : String :=
  "Invalid model. Valid models are: " ++ String.intercalate ", " VALID_MODELS

/-- The catch-all failure message of server.js line 157 with the underlying
error message interpolated. -/
def failMsg (e : String) : String :=
  "Failed to process the request. Details: " ++ e

/-- Observable outcome of one handler invocation: HTTP status, JSON body,
and the payloads of the upstream calls that were issued (none when the
corresponding upstream client was never invoked). -/
structure HandlerResult where
  status : Nat
  body : Json
  clearSent : Option ClearPayload
  sendSent : Option SendPayload

/-- The POST /api/v1/chat/completions handler (server.js lines 117 to 159)
over the credential, the parsed request body, the outcome of the context
reset and the upstream completion stream. The body is any JSON value the
body-parsing middleware can deliver; a null body would make the
destructuring of line 124 throw, and the JSON body parser never delivers
one, so handler theorems over non-message bodies assume the body is not
null. Failures of either upstream call reach the catch of line 155 and
produce the 500 response with the interpolated message. -/
def handle (key : Option String) (body : Json) (clear : Except String Unit)
    (u : UpStream) : HandlerResult :=
  if keyPresent key = true then
    if truthyOpt (extractMessage body) = true then
      if truthyOpt (bodyModel body) = true ∧ modelAllowed (bodyModel body) = false then
        { status := 400, body := errJson invalidModelMsg
          clearSent := none, sendSent := none }
      else
        match clear with
        | Except.error e =>
          { status := 500, body := errJson (failMsg e)
            clearSent := some clearPayload, sendSent := none }
        | Except.ok _ =>
          match sendMessage u with
          | Except.error e =>
            { status := 500, body := errJson (failMsg e)
              clearSent := some clearPayload
              sendSent := some (mkSendPayload (extractMessage body) (bodyModel body)) }
          | Except.ok combined =>
            { status := 200, body := jobj [("response", Json.str combined)]
              clearSent := some clearPayload
              sendSent := some (mkSendPayload (extractMessage body) (bodyModel body)) }
    else
      { status := 400, body := errJson requiredMsg
        clearSent := none, sendSent := none }
  else
    { status := 500, body := errJson missingKeyMsg
      clearSent := none, sendSent := none }

example :
    (handle (some "k")
      (jobj [("model", Json.str "deepseek_chat"),
             ("request", jobj [("message", Json.str "hi")])])
      (Except.ok ())
      { chunks :=
          ["data: \x7b\"choices\":[\x7b\"delta\":\x7b\"content\":\"Hi\"\x7d\x7d]\x7d\n"]
        failure := none }).status = 200 := rfl

example :
    (handle (some "k") (jobj []) (Except.ok ())
      { chunks := [], failure := none }).body = errJson requiredMsg := rfl

/-- The text one line contributes to the accumulator. -/
def lineOutC (line : List Char) : List Char := processLineC [] line

/-- Concatenation of the contributions of a list of lines in order. -/
def processLinesC (ls : List (List Char)) : List Char :=
  (ls.map lineOutC).flatten

/-- The whole byte stream: the chunks concatenated in arrival order. -/
def joinedC (chunks : List String) : List Char :=
  (chunks.map String.data).flatten

/-- Head merge used to describe how the split of a concatenation glues the
last segment of the left part to the first segment of the right part. -/
def mergeHead (l : List Char) : List (List Char) → List (List Char)
  | [] => [l]
  | h :: t => (l ++ h) :: t

/-- All segments except the last. -/
def initL : List (List Char) → List (List Char)
  | [] => []
  | [_] => []
  | a :: b :: rest => a :: initL (b :: rest)

/-- The last segment, defaulting to the empty one. -/
def lastD : List (List Char) → List Char
  | [] => []
  | [a] => a
  | _ :: b :: rest => lastD (b :: rest)

theorem splitNL_ne_nil (s : List Char) : splitNL s ≠ [] := by
  cases s with
  | nil => simp [splitNL]
  | cons c rest =>
    simp only [splitNL]
    split
    · simp
    · split <;> simp

theorem initL_lastD (ls : List (List Char)) (h : ls ≠ []) :
    initL ls ++ [lastD ls] = ls := by
  induction ls with
  | nil => exact absurd rfl h
  | cons a t ih =>
    cases t with
    | nil => rfl
    | cons b t2 =>
      simp only [initL, lastD, List.cons_append]
      rw [ih (by simp)]

theorem initL_append_single (ls : List (List Char)) (x : List Char) :
    initL (ls ++ [x]) = ls := by
  induction ls with
  | nil => rfl
  | cons a t ih =>
    cases t with
    | nil => rfl
    | cons b t2 => exact congrArg (List.cons a) ih

theorem lastD_append_single (ls : List (List Char)) (x : List Char) :
    lastD (ls ++ [x]) = x := by
  induction ls with
  | nil => rfl
  | cons a t ih =>
    cases t with
    | nil => rfl
    | cons b t2 => exact ih

theorem splitNL_cons_newline (rest : List Char) :
    splitNL ('\n' :: rest) = [] :: splitNL rest := by
  simp [splitNL]

theorem splitNL_cons_other (c : Char) (rest : List Char) (hc : c ≠ '\n') :
    splitNL (c :: rest)
      = match splitNL rest with
        | [] => [[c]]
        | l :: ls => (c :: l) :: ls := by
  simp [splitNL, hc]

theorem splitNL_append (x y : List Char) :
    splitNL (x ++ y)
      = initL (splitNL x) ++ mergeHead (lastD (splitNL x)) (splitNL y) := by
  induction x with
  | nil =>
    simp only [List.nil_append, splitNL, initL, lastD]
    cases h : splitNL y with
    | nil => exact absurd h (splitNL_ne_nil y)
    | cons a t => simp [mergeHead]
  | cons c x ih =>
    by_cases hc : c = '\n'
    · subst hc
      rw [List.cons_append, splitNL_cons_newline, splitNL_cons_newline, ih]
      cases h : splitNL x with
      | nil => exact absurd h (splitNL_ne_nil x)
      | cons a t =>
        cases t with
        | nil => simp [initL, lastD]
        | cons b t2 => simp [initL, lastD]
    · rw [List.cons_append, splitNL_cons_other c _ hc, splitNL_cons_other c _ hc, ih]
      cases h : splitNL x with
      | nil => exact absurd h (splitNL_ne_nil x)
      | cons a t =>
        cases t with
        | nil =>
          simp only [initL, lastD, List.nil_append]
          cases hy : splitNL y with
          | nil => exact absurd hy (splitNL_ne_nil y)
          | cons h2 t2 => simp [mergeHead]
        | cons b t2 =>
          simp [initL, lastD]

theorem splitNL_snoc_newline (d : List Char) :
    splitNL (d ++ ['\n']) = splitNL d ++ [[]] := by
  rw [splitNL_append]
  rw [show splitNL ['\n'] = [[], []] from rfl]
  show initL (splitNL d) ++ (lastD (splitNL d) ++ []) :: [[]] = splitNL d ++ [[]]
  rw [List.append_nil]
  rw [show (lastD (splitNL d)) :: [([] : List Char)]
      = [lastD (splitNL d)] ++ [[]] from rfl]
  rw [← List.append_assoc, initL_lastD _ (splitNL_ne_nil d)]

theorem mapButLast_append (f : List Char → List Char)
    (u v : List (List Char)) (h : v ≠ []) :
    mapButLast f (u ++ v) = u.map f ++ mapButLast f v := by
  induction u with
  | nil => simp
  | cons a u ih =>
    cases hu : u ++ v with
    | nil =>
      rcases List.append_eq_nil.mp hu with ⟨-, hv⟩
      exact absurd hv h
    | cons b t =>
      rw [List.cons_append, hu,
        show mapButLast f (a :: b :: t) = f a :: mapButLast f (b :: t) from rfl,
        ← hu, ih, List.map_cons, List.cons_append]

theorem splitLines_snoc (d : List Char) :
    splitLines (d ++ ['\n']) = (splitNL d).map stripCR ++ [[]] := by
  unfold splitLines
  rw [splitNL_snoc_newline, mapButLast_append _ _ _ (by simp)]
  rfl

theorem splitLines_snoc_append (d b : List Char) :
    splitLines ((d ++ ['\n']) ++ b)
      = (splitNL d).map stripCR ++ splitLines b := by
  unfold splitLines
  rw [splitNL_append, splitNL_snoc_newline, initL_append_single,
    lastD_append_single]
  have hb := splitNL_ne_nil b
  cases hsb : splitNL b with
  | nil => exact absurd hsb hb
  | cons h t =>
    rw [show mergeHead [] (h :: t) = ([] ++ h) :: t from rfl, List.nil_append,
      mapButLast_append _ _ _ (by simp)]

theorem processLineC_eq_append (acc line : List Char) :
    processLineC acc line = acc ++ processLineC [] line := by
  simp only [processLineC]
  split
  · split
    · split
      · simp
      · simp
    · simp
  · simp

theorem foldl_processLineC_append (ls : List (List Char)) (acc : List Char) :
    ls.foldl processLineC acc = acc ++ ls.foldl processLineC [] := by
  induction ls generalizing acc with
  | nil => simp
  | cons l ls ih =>
    simp only [List.foldl_cons]
    rw [ih (processLineC acc l), ih (processLineC [] l),
      processLineC_eq_append acc l, List.append_assoc]

theorem foldl_processLineC_eq_flatten (ls : List (List Char)) :
    ls.foldl processLineC [] = processLinesC ls := by
  induction ls with
  | nil => rfl
  | cons l ls ih =>
    simp only [List.foldl_cons, processLinesC, List.map_cons, List.flatten_cons]
    rw [foldl_processLineC_append, ih]
    simp [processLinesC, lineOutC]

theorem processLinesC_append (u v : List (List Char)) :
    processLinesC (u ++ v) = processLinesC u ++ processLinesC v := by
  simp [processLinesC, List.map_append, List.flatten_append]

theorem processChunkC_eq_append (acc ch : List Char) :
    processChunkC acc ch = acc ++ processChunkC [] ch :=
  foldl_processLineC_append (splitLines ch) acc

theorem processChunkC_nil_eq (ch : List Char) :
    processChunkC [] ch = processLinesC (splitLines ch) :=
  foldl_processLineC_eq_flatten (splitLines ch)

theorem foldl_chunks_append (cs : List String) (acc : List Char) :
    cs.foldl (fun a c => processChunkC a c.data) acc
      = acc ++ cs.foldl (fun a c => processChunkC a c.data) [] := by
  induction cs generalizing acc with
  | nil => simp
  | cons c cs ih =>
    simp only [List.foldl_cons]
    rw [ih (processChunkC acc c.data), ih (processChunkC [] c.data),
      processChunkC_eq_append acc c.data, List.append_assoc]

/-- Core correspondence for streams delivered in whole lines: when every
chunk is empty or ends with a newline, the per-chunk accumulation of
sendMessage equals the per-line contributions of the whole concatenated
stream. -/
theorem sendMessage_wholelines (chunks : List String)
    (h : ∀ c ∈ chunks, c = "" ∨ ∃ d, c.data = d ++ ['\n']) :
    sendMessageResultC chunks = processLinesC (splitLines (joinedC chunks)) := by
  induction chunks with
  | nil => rfl
  | cons c cs ih =>
    have hc := h c (List.mem_cons_self c cs)
    have hcs : ∀ x ∈ cs, x = "" ∨ ∃ d, x.data = d ++ ['\n'] :=
      fun x hx => h x (List.mem_cons_of_mem c hx)
    have step : sendMessageResultC (c :: cs)
        = processChunkC [] c.data ++ sendMessageResultC cs := by
      simp only [sendMessageResultC, List.foldl_cons]
      rw [foldl_chunks_append]
    have hjoin : joinedC (c :: cs) = c.data ++ joinedC cs := by
      simp [joinedC]
    rcases hc with hempty | ⟨d, hd⟩
    · subst hempty
      rw [step, hjoin]
      rw [show ("" : String).data = ([] : List Char) from rfl]
      rw [show processChunkC [] [] = ([] : List Char) from rfl]
      rw [List.nil_append, List.nil_append]
      exact ih hcs
    · rw [step, hjoin, hd, processChunkC_nil_eq, splitLines_snoc,
        splitLines_snoc_append, processLinesC_append, processLinesC_append,
        ih hcs]
      rw [show processLinesC [[]] = ([] : List Char) from rfl, List.append_nil]

/-- First event line of the reference stream, carrying the delta Hel. -/
def helloLine1 : String :=
  "data: \x7b\"choices\":[\x7b\"delta\":\x7b\"content\":\"Hel\"\x7d\x7d]\x7d"

/-- Second event line of the reference stream, carrying the delta lo. -/
def helloLine2 : String :=
  "data: \x7b\"choices\":[\x7b\"delta\":\x7b\"content\":\"lo\"\x7d\x7d]\x7d"

/-- A data-prefixed line whose payload is not valid JSON. -/
def badLine : String := "data: \x7bnotjson"

/-- The reference lines as newline-terminated chunks. -/
def helloChunk1 : String := helloLine1 ++ "\n"

/-- Second newline-terminated chunk of the reference stream. -/
def helloChunk2 : String := helloLine2 ++ "\n"

/-- The malformed line as a newline-terminated chunk. -/
def badChunk : String := badLine ++ "\n"

/-- First half of the mid-line split delivery: the whole first event plus
the beginning of the second event line, cut inside its JSON payload. -/
def splitChunkA : String := helloChunk1 ++ "data: \x7b\"choi"

/-- Second half of the mid-line split delivery: the rest of the second
event line with its terminating newline. -/
def splitChunkB : String := "ces\":[\x7b\"delta\":\x7b\"content\":\"lo\"\x7d\x7d]\x7d\n"

/-- C1: for every upstream stream delivered as chunks that each contain
only whole lines (each chunk is empty or newline-terminated), sendMessage
resolves, without rejecting, to the concatenation in arrival order of the
delta contributions of every line of the whole stream — the contribution
of a line being its choices[0].delta.content exactly when the line carries
the data prefix and parses to a truthy delta chain. -/
theorem claim_C1_wholeline_concat (chunks : List String)
    (h : ∀ c ∈ chunks, c = "" ∨ ∃ d, c.data = d ++ ['\n']) :
    sendMessage { chunks := chunks, failure := none }
      = Except.ok (String.mk (processLinesC (splitLines (joinedC chunks)))) := by
  show Except.ok (String.mk (sendMessageResultC chunks)) = _
  rw [sendMessage_wholelines chunks h]

/-- C1 witness: the stream emitting the delta Hel then the delta lo then
end-of-stream resolves to Hello. -/
theorem claim_C1_witness :
    sendMessage { chunks := [helloChunk1, helloChunk2], failure := none }
      = Except.ok "Hello" := by
  have hyp : ∀ c ∈ [helloChunk1, helloChunk2],
      c = "" ∨ ∃ d, c.data = d ++ ['\n'] := by
    intro c hc
    rcases List.mem_cons.mp hc with rfl | hc2
    · exact Or.inr ⟨helloLine1.data, by decide⟩
    rcases List.mem_cons.mp hc2 with rfl | hc3
    · exact Or.inr ⟨helloLine2.data, by decide⟩
    · exact absurd hc3 (List.not_mem_nil c)
  have h := claim_C1_wholeline_concat [helloChunk1, helloChunk2] hyp
  exact h.trans (congrArg Except.ok (by decide))

/-- C2: the chunk handler splits every chunk into lines independently and
keeps no carry-over buffer, so a byte stream that forms valid delta lines
as a whole but is delivered cut in the middle of a line loses the cut
delta: delivered as one whole-line chunk the result is Hello, delivered as
two chunks split inside the second event the result is only Hel, and the
two results differ. -/
theorem claim_C2_split_line_lost :
    sendMessageResultC [splitChunkA ++ splitChunkB] = "Hello".data ∧
    sendMessageResultC [splitChunkA, splitChunkB] = "Hel".data ∧
    sendMessageResultC [splitChunkA, splitChunkB]
      ≠ sendMessageResultC [splitChunkA ++ splitChunkB] := by
  refine ⟨by decide, by decide, by decide⟩

/-- C3: a data-prefixed line whose payload fails to parse as JSON is
skipped without aborting: for every whole-line stream whose line split is
A, then the malformed line, then B, sendMessage still resolves, to the
concatenation of the contributions of A and of B in order. -/
theorem claim_C3_malformed_line_skipped (chunks : List String)
    (A B : List (List Char)) (l : List Char)
    (hch : ∀ c ∈ chunks, c = "" ∨ ∃ d, c.data = d ++ ['\n'])
    (hsplit : splitLines (joinedC chunks) = A ++ l :: B)
    (hpref : dataPrefixC.isPrefixOf (trimChars l) = true)
    (hbad : parseJson ((trimChars l).drop 6) = none) :
    sendMessage { chunks := chunks, failure := none }
      = Except.ok (String.mk (processLinesC A ++ processLinesC B)) := by
  have hline : lineOutC l = [] := by
    simp only [lineOutC, processLineC, hpref, hbad]
    simp
  show Except.ok (String.mk (sendMessageResultC chunks)) = _
  rw [sendMessage_wholelines chunks hch, hsplit, processLinesC_append]
  rw [show processLinesC (l :: B) = lineOutC l ++ processLinesC B from by
    simp [processLinesC]]
  rw [hline, List.nil_append]

/-- C3 witness: with the malformed line between the two valid delta lines,
the stream still resolves to Hello. -/
theorem claim_C3_witness :
    sendMessage { chunks := [helloChunk1, badChunk, helloChunk2], failure := none }
      = Except.ok "Hello" := by
  have hyp : ∀ c ∈ [helloChunk1, badChunk, helloChunk2],
      c = "" ∨ ∃ d, c.data = d ++ ['\n'] := by
    intro c hc
    rcases List.mem_cons.mp hc with rfl | hc2
    · exact Or.inr ⟨helloLine1.data, by decide⟩
    rcases List.mem_cons.mp hc2 with rfl | hc3
    · exact Or.inr ⟨badLine.data, by decide⟩
    rcases List.mem_cons.mp hc3 with rfl | hc4
    · exact Or.inr ⟨helloLine2.data, by decide⟩
    · exact absurd hc4 (List.not_mem_nil c)
  have h := claim_C3_malformed_line_skipped
    [helloChunk1, badChunk, helloChunk2]
    [helloLine1.data] [helloLine2.data, []] badLine.data
    hyp (by decide) (by decide) rfl
  exact h.trans (congrArg Except.ok (by decide))

/-- A minimal valid body: a request object with a non-empty message. -/
def okBody : Json := jobj [("request", jobj [("message", Json.str "hi")])]

/-- A valid body selecting the chat model. -/
def chatBody : Json :=
  jobj [("model", Json.str "deepseek_chat"),
        ("request", jobj [("message", Json.str "hi")])]

/-- A body whose model field is present but the falsy empty string. -/
def emptyModelBody : Json :=
  jobj [("model", Json.str ""),
        ("request", jobj [("message", Json.str "hi")])]

/-- A body whose model field is a truthy string outside the allow-list. -/
def unknownModelBody : Json :=
  jobj [("model", Json.str "gpt4"),
        ("request", jobj [("message", Json.str "hi")])]

/-- C4: with the credential present, every body whose request.message is
absent or the empty string receives the 400 missing-message response, and
neither the context-reset client nor the streaming-completion client is
invoked. -/
theorem claim_C4_missing_message_400 (key : String) (body : Json)
    (clear : Except String Unit) (u : UpStream)
    (hkey : key ≠ "")
    (hmsg : extractMessage body = none ∨
      extractMessage body = some (Json.str "")) :
    handle (some key) body clear u
      = { status := 400, body := errJson requiredMsg
          clearSent := none, sendSent := none } := by
  have hk : keyPresent (some key) = true := by
    simp [keyPresent, hkey]
  have hm : ¬(truthyOpt (extractMessage body) = true) := by
    rcases hmsg with h | h <;> rw [h] <;> decide
  unfold handle
  rw [if_pos hk, if_neg hm]

/-- C4 witness: a body with a request object but no message field gets the
400 missing-message response with no upstream call. -/
theorem claim_C4_witness :
    handle (some "k") (jobj [("request", jobj [])]) (Except.ok ())
      { chunks := [], failure := none }
      = { status := 400, body := errJson requiredMsg
          clearSent := none, sendSent := none } :=
  claim_C4_missing_message_400 "k" (jobj [("request", jobj [])])
    (Except.ok ()) { chunks := [], failure := none }
    (by decide) (Or.inl rfl)

/-- C5: for every request passing validation, a failed context reset
yields the 500 response carrying the underlying error message, and the
streaming-completion client is never invoked. -/
theorem claim_C5_clear_failure_500 (key : Option String) (body : Json)
    (e : String) (u : UpStream)
    (hkey : keyPresent key = true)
    (hmsg : truthyOpt (extractMessage body) = true)
    (hmodel : ¬(truthyOpt (bodyModel body) = true
      ∧ modelAllowed (bodyModel body) = false)) :
    handle key body (Except.error e) u
      = { status := 500, body := errJson (failMsg e)
          clearSent := some clearPayload, sendSent := none } := by
  unfold handle
  rw [if_pos hkey, if_pos hmsg, if_neg hmodel]

/-- C5 witness: with a valid body and a failing context reset, the
response is the 500 with the reset error embedded and no send payload. -/
theorem claim_C5_witness :
    handle (some "k") okBody (Except.error "reset down")
      { chunks := [], failure := none }
      = { status := 500, body := errJson (failMsg "reset down")
          clearSent := some clearPayload, sendSent := none } :=
  claim_C5_clear_failure_500 (some "k") okBody "reset down"
    { chunks := [], failure := none } (by decide) (by decide) (by decide)

/-- C6: with the credential unset, every request receives the 500 response
with the fixed missing-credential message, whatever the body and whatever
the upstream would have done, and no upstream call is issued; the check is
part of the per-request handler, not of startup. -/
theorem claim_C6_missing_credential_500 (body : Json)
    (clear : Except String Unit) (u : UpStream) :
    handle none body clear u
      = { status := 500, body := errJson missingKeyMsg
          clearSent := none, sendSent := none } := by
  unfold handle
  rw [if_neg (by decide)]

/-- C7 counterexample: the claim that every request with a model field
present and outside the allow-list gets a 400 with no upstream call fails
at the body whose model is the empty string: the model field is present,
the empty string is not in the allow-list, yet the handler answers 200 and
does invoke the context-reset client, because the validation of server.js
line 134 tests the model for truthiness before membership. -/
theorem claim_C7_counterexample :
    bodyModel emptyModelBody = some (Json.str "") ∧
    modelAllowed (bodyModel emptyModelBody) = false ∧
    (handle (some "k") emptyModelBody (Except.ok ())
      { chunks := [], failure := none }).status = 200 ∧
    (handle (some "k") emptyModelBody (Except.ok ())
      { chunks := [], failure := none }).clearSent = some clearPayload :=
  ⟨rfl, rfl, rfl, rfl⟩

/-- C7 amended: for every request whose model field is present with a
truthy value outside the allow-list, the handler responds 400 with an
error JSON (the invalid-model message when the message validates, the
missing-message one otherwise) and makes no upstream call. The original
claim, which asked this for every present model value, fails on the falsy
empty-string model of the counterexample. -/
theorem claim_C7_amended (key : Option String) (body : Json)
    (clear : Except String Unit) (u : UpStream) (v : Json)
    (hkey : keyPresent key = true)
    (hmodel : bodyModel body = some v)
    (htr : v.truthy = true)
    (hna : modelAllowed (some v) = false) :
    (handle key body clear u).status = 400 ∧
    (handle key body clear u).clearSent = none ∧
    (handle key body clear u).sendSent = none ∧
    ((handle key body clear u).body = errJson requiredMsg ∨
      (handle key body clear u).body = errJson invalidModelMsg) := by
  unfold handle
  rw [if_pos hkey]
  by_cases hm : truthyOpt (extractMessage body) = true
  · rw [if_pos hm, if_pos ?cond]
    case cond =>
      refine ⟨?_, ?_⟩
      · rw [hmodel]; exact htr
      · rw [hmodel]; exact hna
    exact ⟨rfl, rfl, rfl, Or.inr rfl⟩
  · rw [if_neg hm]
    exact ⟨rfl, rfl, rfl, Or.inl rfl⟩

/-- C7 witness for the amended claim: a truthy unknown model is rejected
with 400 and no upstream call. -/
theorem claim_C7_witness :
    (handle (some "k") unknownModelBody (Except.ok ())
      { chunks := [], failure := none }).status = 400 ∧
    (handle (some "k") unknownModelBody (Except.ok ())
      { chunks := [], failure := none }).clearSent = none ∧
    (handle (some "k") unknownModelBody (Except.ok ())
      { chunks := [], failure := none }).sendSent = none ∧
    ((handle (some "k") unknownModelBody (Except.ok ())
      { chunks := [], failure := none }).body = errJson requiredMsg ∨
      (handle (some "k") unknownModelBody (Except.ok ())
        { chunks := [], failure := none }).body = errJson invalidModelMsg) :=
  claim_C7_amended (some "k") unknownModelBody (Except.ok ())
    { chunks := [], failure := none } (Json.str "gpt4")
    (by decide) rfl (by decide) (by decide)

/-- C8: for every request passing validation, a failure of either upstream
operation produces the 500 response with the failure message interpolated
and nothing else; a 200 response arises only from a completed stream and
carries exactly the full accumulated string, so no partially accumulated
text is ever delivered. -/
theorem claim_C8_all_or_nothing_output (key : Option String) (body : Json)
    (clear : Except String Unit) (u : UpStream)
    (hkey : keyPresent key = true)
    (hmsg : truthyOpt (extractMessage body) = true)
    (hmodel : ¬(truthyOpt (bodyModel body) = true
      ∧ modelAllowed (bodyModel body) = false)) :
    (∀ e, clear = Except.error e →
      handle key body clear u
        = { status := 500, body := errJson (failMsg e)
            clearSent := some clearPayload, sendSent := none }) ∧
    (∀ e, clear = Except.ok () → u.failure = some e →
      handle key body clear u
        = { status := 500, body := errJson (failMsg e)
            clearSent := some clearPayload
            sendSent := some (mkSendPayload (extractMessage body)
              (bodyModel body)) }) ∧
    ((handle key body clear u).status = 200 →
      u.failure = none ∧
      (handle key body clear u).body
        = jobj [("response",
            Json.str (String.mk (sendMessageResultC u.chunks)))]) := by
  unfold handle
  rw [if_pos hkey, if_pos hmsg, if_neg hmodel]
  refine ⟨?_, ?_, ?_⟩
  · intro e he
    subst he
    rfl
  · intro e hc hf
    subst hc
    simp only [sendMessage, hf]
  · cases clear with
    | error e =>
      intro h
      exact absurd h (by decide : ¬((500 : Nat) = 200))
    | ok w =>
      cases w
      cases hu : u.failure with
      | some e =>
        intro h
        simp only [sendMessage, hu] at h
        exact absurd h (by decide : ¬((500 : Nat) = 200))
      | none =>
        intro _
        refine ⟨rfl, ?_⟩
        rw [show sendMessage u
            = Except.ok (String.mk (sendMessageResultC u.chunks)) from by
          simp [sendMessage, hu]]

/-- C8 witness: a stream that errors after a chunk yields the 500 with the
interpolated message and no response field, not a partial 200. -/
theorem claim_C8_witness :
    handle (some "k") okBody (Except.ok ())
      { chunks := [helloChunk1], failure := some "socket hang up" }
      = { status := 500, body := errJson (failMsg "socket hang up")
          clearSent := some clearPayload
          sendSent := some (mkSendPayload (extractMessage okBody)
            (bodyModel okBody)) } := by
  have h := claim_C8_all_or_nothing_output (some "k") okBody (Except.ok ())
    { chunks := [helloChunk1], failure := some "socket hang up" }
    (by decide) (by decide) (by decide)
  exact h.2.1 "socket hang up" rfl rfl

/-- C9: for every valid request selecting the model deepseek_chat, the
context-reset client is still invoked with the fixed clear payload, whose
model class is the constant deepseek_code and not the requested model. -/
theorem claim_C9_clear_payload_fixed_model (key : Option String) (body : Json)
    (clear : Except String Unit) (u : UpStream)
    (hkey : keyPresent key = true)
    (hmsg : truthyOpt (extractMessage body) = true)
    (hmodel : bodyModel body = some (Json.str "deepseek_chat")) :
    (handle key body clear u).clearSent = some clearPayload ∧
    clearPayload.model_class = "deepseek_code" ∧
    clearPayload.model_class ≠ "deepseek_chat" := by
  refine ⟨?_, rfl, by decide⟩
  unfold handle
  rw [if_pos hkey, if_pos hmsg, if_neg ?cond]
  case cond =>
    intro hand
    rw [hmodel] at hand
    exact absurd hand.2 (by decide)
  cases clear with
  | error e => rfl
  | ok w =>
    cases w
    cases hs : sendMessage u with
    | error e => simp only [hs]
    | ok s => simp only [hs]

/-- C9 witness: a request selecting deepseek_chat still clears the context
of deepseek_code. -/
theorem claim_C9_witness :
    (handle (some "k") chatBody (Except.ok ())
      { chunks := [], failure := none }).clearSent = some clearPayload ∧
    clearPayload.model_class = "deepseek_code" ∧
    clearPayload.model_class ≠ "deepseek_chat" :=
  claim_C9_clear_payload_fixed_model (some "k") chatBody (Except.ok ())
    { chunks := [], failure := none } (by decide) (by decide) rfl

/-- Whether a JSON value is an object. -/
def isObjB : Json → Bool
  | .obj _ => true
  | _ => false

/-- C10: with the credential present, every body whose request field is
absent or not an object is handled without failure: the destructuring
falls back so that the message is undefined, and the response is the 400
missing-message error with no upstream call. -/
theorem claim_C10_nonobject_request_400 (key : Option String) (body : Json)
    (clear : Except String Unit) (u : UpStream)
    (hkey : keyPresent key = true)
    (hreq : bodyRequest body = none ∨
      ∃ v, bodyRequest body = some v ∧ isObjB v = false) :
    handle key body clear u
      = { status := 400, body := errJson requiredMsg
          clearSent := none, sendSent := none } := by
  have hm : extractMessage body = none := by
    unfold extractMessage
    rcases hreq with h | ⟨v, hv, hobj⟩
    · rw [h]
      rfl
    · rw [hv]
      show getField (if v.truthy = true then v else jobj []) "message" = none
      cases htv : v.truthy with
      | false =>
        rw [if_neg (by decide : ¬(false = true))]
        rfl
      | true =>
        rw [if_pos (Eq.refl true)]
        cases v with
        | obj fs => simp [isObjB] at hobj
        | null => rfl
        | bool b => rfl
        | num m e => rfl
        | str s => rfl
        | arr es => rfl
  have hmt : ¬(truthyOpt (extractMessage body) = true) := by
    rw [hm]; decide
  unfold handle
  rw [if_pos hkey, if_neg hmt]

/-- C10 witness: a body whose request field is a string is answered with
the 400 missing-message response and no upstream call. -/
theorem claim_C10_witness :
    handle (some "k") (jobj [("request", Json.str "oops")]) (Except.ok ())
      { chunks := [], failure := none }
      = { status := 400, body := errJson requiredMsg
          clearSent := none, sendSent := none } :=
  claim_C10_nonobject_request_400 (some "k")
    (jobj [("request", Json.str "oops")]) (Except.ok ())
    { chunks := [], failure := none } (by decide)
    (Or.inr ⟨Json.str "oops", rfl, rfl⟩)
